import Mathlib

/-!
Verification of the helm-schema-gen schema inference engine.

This file shallowly embeds the Go sources of the repository:
  pkg/schema-generator/type_detection.go       (inferSchema, hasMixedTypes,
                                                InferArrayItemsWithMultipleTypes)
  pkg/schema-generator (pattern table file)    (shouldSupportMultipleTypes)
  pkg/schema-generator/schema_generator.go     (GenerateFromYAML, GenerateFromMap,
                                                convertYAMLToStringMap, isLikelyYAMLOrJSON)
  pkg/schema-generator/extract_comments.go     (CommentExtractor)
  pkg/schema-generator/helm_best_practices.go  (linter)
  pkg/json-schema-generator/generate.go        (SpecializeSchemaForHelm and friends)

Go strings are modelled as Lean strings; the string helpers below mirror the
semantics of the Go strings package on the ASCII inputs this program handles
(byte = character for ASCII).  Go maps that the code iterates are modelled as
association lists; where the Go code's result is independent of iteration
order this is a faithful rendering.
-/

namespace HelmSchemaGen

/-! ## String primitives (Go strings package semantics, ASCII) -/

/-- Characters Go's strings.TrimSpace removes (ASCII whitespace). -/
def isSpaceCh (c : Char) : Bool :=
  c = ' ' || c = '\t' || c = '\n' || c = '\r'

/-- Drop leading whitespace characters. -/
def dropLeadSp : List Char → List Char
  | [] => []
  | c :: cs => if isSpaceCh c then dropLeadSp cs else c :: cs

/-- strings.TrimSpace on character lists. -/
def trimSpaceL (l : List Char) : List Char :=
  ((dropLeadSp ((dropLeadSp l).reverse)).reverse)

/-- strings.HasPrefix: does the first list start with the second? -/
def startsWithL : List Char → List Char → Bool
  | _, [] => true
  | [], _ :: _ => false
  | c :: cs, p :: ps => c = p && startsWithL cs ps

/-- strings.HasSuffix: does the first list end with the second? -/
def endsWithL (s sfx : List Char) : Bool :=
  startsWithL s.reverse sfx.reverse

/-- strings.Contains: does the first argument occur as a contiguous
substring of the second? -/
def containsSubL (sub : List Char) : List Char → Bool
  | [] => sub.isEmpty
  | c :: cs => startsWithL (c :: cs) sub || containsSubL sub cs

/-- strings.TrimPrefix: remove the prefix when present, else return unchanged. -/
def stripLeadL (s pfx : List Char) : List Char :=
  if startsWithL s pfx then s.drop pfx.length else s

/-- strings.ToLower (ASCII case folding, as all paths in this program are ASCII). -/
def lowerL (l : List Char) : List Char := l.map Char.toLower

/-- Splitting on the newline character, as bufio.Scanner does when scanning
lines.  (A trailing newline yields one final empty line here where the Go
scanner yields none; every caller in the embedded code skips blank lines,
so the difference is unobservable.) -/
def splitLinesL : List Char → List (List Char)
  | [] => [[]]
  | c :: cs =>
    if c = '\n' then [] :: splitLinesL cs
    else
      match splitLinesL cs with
      | [] => [[c]]
      | l :: ls => (c :: l) :: ls

/-- String wrapper for trimSpaceL. -/
def strTrim (s : String) : String := ⟨trimSpaceL s.data⟩

/-- String wrapper for startsWithL. -/
def strStarts (s pfx : String) : Bool := startsWithL s.data pfx.data

/-- String wrapper for endsWithL. -/
def strEnds (s sfx : String) : Bool := endsWithL s.data sfx.data

/-- String wrapper for containsSubL: strContains s sub means sub occurs in s. -/
def strContains (s sub : String) : Bool := containsSubL sub.data s.data

/-- String wrapper for stripLeadL. -/
def strStripLead (s pfx : String) : String := ⟨stripLeadL s.data pfx.data⟩

/-- String wrapper for lowerL. -/
def strLower (s : String) : String := ⟨lowerL s.data⟩

/-- String wrapper for splitLinesL. -/
def strLines (s : String) : List String := (splitLinesL s.data).map String.mk

/-- strings.Join with a separator. -/
def strJoin (sep : String) : List String → String
  | [] => ""
  | [x] => x
  | x :: y :: rest => x ++ sep ++ strJoin sep (y :: rest)

/-! ## The data model: values and schema nodes -/

/-- A decoded YAML value after convertYAMLToStringMap: the Value Node union.
Floats carry a rational (the program never computes with them, it only
dispatches on the kind). -/
inductive Value where
  | null
  | bool (b : Bool)
  | int (n : Int)
  | float (q : ℚ)
  | str (s : String)
  | arr (elems : List Value)
  | map (entries : List (String × Value))

/-- Is this value Go nil (YAML null)?  Used for the RequireByDefault policy. -/
def Value.isNull : Value → Bool
  | .null => true
  | _ => false

/-- SchemaType: the JSON Schema type tags used by the program (json_schema.go). -/
inductive SchemaType where
  | arrayT
  | booleanT
  | integerT
  | nullT
  | numberT
  | objectT
  | stringT
deriving DecidableEq

def TypeArray : SchemaType := .arrayT
def TypeBoolean : SchemaType := .booleanT
def TypeInteger : SchemaType := .integerT
def TypeNull : SchemaType := .nullT
def TypeNumber : SchemaType := .numberT
def TypeObject : SchemaType := .objectT
def TypeString : SchemaType := .stringT

/-- The dynamic `Type any` field of a Go Schema: nil, a single SchemaType, or
a []SchemaType union. -/
inductive STy where
  | missing
  | one (t : SchemaType)
  | many (ts : List SchemaType)
deriving DecidableEq

/-- A Schema node (json_schema.go `Schema`), restricted to the fields the
embedded code reads or writes.  Go nil maps/pointers are `none`; nil slices
are `[]`.  Field order: schemaVer, title, description, type, format,
properties, required, items, minItems, maxItems, enum, default, examples,
helmPath. -/
inductive Schema where
  | mk
    (schemaVer : String)
    (title : String)
    (description : String)
    (type : STy)
    (format : String)
    (properties : Option (List (String × Schema)))
    (required : List String)
    (items : Option Schema)
    (minItems : Option Int)
    (maxItems : Option Int)
    (enum : List String)
    (default : Option Value)
    (examples : List Value)
    (helmPath : String)

def Schema.schemaVer : Schema → String
  | .mk v _ _ _ _ _ _ _ _ _ _ _ _ _ => v

def Schema.title : Schema → String
  | .mk _ t _ _ _ _ _ _ _ _ _ _ _ _ => t

def Schema.description : Schema → String
  | .mk _ _ d _ _ _ _ _ _ _ _ _ _ _ => d

def Schema.type : Schema → STy
  | .mk _ _ _ t _ _ _ _ _ _ _ _ _ _ => t

def Schema.format : Schema → String
  | .mk _ _ _ _ f _ _ _ _ _ _ _ _ _ => f

def Schema.properties : Schema → Option (List (String × Schema))
  | .mk _ _ _ _ _ p _ _ _ _ _ _ _ _ => p

def Schema.required : Schema → List String
  | .mk _ _ _ _ _ _ r _ _ _ _ _ _ _ => r

def Schema.items : Schema → Option Schema
  | .mk _ _ _ _ _ _ _ i _ _ _ _ _ _ => i

def Schema.minItems : Schema → Option Int
  | .mk _ _ _ _ _ _ _ _ m _ _ _ _ _ => m

def Schema.maxItems : Schema → Option Int
  | .mk _ _ _ _ _ _ _ _ _ m _ _ _ _ => m

def Schema.enum : Schema → List String
  | .mk _ _ _ _ _ _ _ _ _ _ e _ _ _ => e

def Schema.default : Schema → Option Value
  | .mk _ _ _ _ _ _ _ _ _ _ _ d _ _ => d

def Schema.examples : Schema → List Value
  | .mk _ _ _ _ _ _ _ _ _ _ _ _ e _ => e

def Schema.helmPath : Schema → String
  | .mk _ _ _ _ _ _ _ _ _ _ _ _ _ h => h

/-- The zero Schema value: all fields at their Go zero value. -/
def Schema.zero : Schema :=
  .mk "" "" "" .missing "" none [] none none none [] none [] ""

/-- Replace the description field. -/
def Schema.setDescription (s : Schema) (d : String) : Schema :=
  match s with
  | .mk a b _ t f p r i mn mx e df ex h => .mk a b d t f p r i mn mx e df ex h

/-- Replace the properties field. -/
def Schema.setProperties (s : Schema) (p : Option (List (String × Schema))) : Schema :=
  match s with
  | .mk a b d t f _ r i mn mx e df ex h => .mk a b d t f p r i mn mx e df ex h

/-- Replace the items field. -/
def Schema.setItems (s : Schema) (i : Option Schema) : Schema :=
  match s with
  | .mk a b d t f p r _ mn mx e df ex h => .mk a b d t f p r i mn mx e df ex h

/-! ## The Pattern Table (shouldSupportMultipleTypes) -/

/-- patternMapping: a path-fragment pattern list with a match mode and the
schema types returned on a match. -/
structure patternMapping where
  patterns : List String
  matchType : String
  types : List SchemaType

/-- The pattern table, transcribed rule by rule in declaration order. -/
def patternMappings : List patternMapping :=
  [ ⟨[ "annotations", "labels", "nodeselector", "securitycontext",
       "affinity", "strategy", "networkpolicy", "objectselector",
       "poddisruptionbudget", "hostaliases", "matchlabels",
       "nodeaffinity", "podaffinity", "podantiaffinity", "selector",
       "topology", "rules", "expressions", "rollingupdate" ],
     "contains", [TypeObject, TypeString]⟩,
    ⟨[ "autoscaling", "forceupgrade", "createnamespace", "autosync",
       "persistence", "tls", "auth", "hostnetwork", "hostpid", "hostipc",
       "singlenamespace", "debug", "rbac", "monitoring", "istio",
       "serviceaccount", "automounttoken", "priorityclass", "metrics",
       "tracing" ],
     "contains", [TypeBoolean, TypeString]⟩,
    ⟨[ "enabled" ], "exact-or-suffix", [TypeBoolean, TypeString]⟩,
    ⟨[ "tolerations", "topologyspreadconstraints", "volumes",
       "initcontainers", "extracontainers", "volumemounts",
       "imagepullsecrets", "hostalias", "sidecars", "extravolumes",
       "extrainitcontainers", "envfrom", "args", "command", "ports",
       "env", "environment", "secrets", "configmaps", "pods",
       "endpoints", "tls.hosts", "ingress.hosts", "hostAliases",
       "deploymentannotations", "podsecuritycontext", "permissions" ],
     "contains", [TypeNull, TypeArray, TypeString]⟩,
    ⟨[ "secretname", "storageclass", "servicenodeport", "priorityclassname",
       "certname", "keyname", "cabundle", "ingressclassname", "authsecret",
       "namespace", "finalizer", "servicename", "clusterrole", "role",
       "healthcheckpath", "mountpath", "filename", "secretkey", "timezone",
       "bootstrapservers", "topic" ],
     "contains", [TypeNull, TypeString]⟩,
    ⟨[ "maxunavailable", "nodeport", "replicacount", "replicas",
       "port", "targetport", "containerport", "serviceport", "metricsport",
       "healthport", "readinessport", "maxreplicas", "minreplicas",
       "terminationgraceperiodseconds", "backofflimit", "failurethreshold",
       "successthreshold", "initialdelayseconds", "timeoutseconds",
       "periodseconds", "minavailable", "retention", "timeout", "limit",
       "weight" ],
     "contains", [TypeNull, TypeInteger]⟩,
    ⟨[ "config", "extraenv", "extraenvironmentvars", "extravolumeconfig",
       "configuration", "settings", "options", "parameters", "properties",
       "authentication", "authorization", "security", "networking",
       "customvalues", "extraconfigs" ],
     "contains", [TypeString, TypeObject]⟩,
    ⟨[ "resources.limits.memory", "resources.requests.memory", "memory",
       "resources.limits.cpu", "resources.requests.cpu", "cpu",
       "resources.limits", "resources.requests",
       "threshold", "percentage", "ratio", "factor", "scalar", "weight",
       "scale", "bytes", "size", "quota", "maxsurge", "minavailable",
       "retention" ],
     "contains", [TypeString, TypeInteger, TypeNumber]⟩,
    ⟨[ "preference", "mode", "state", "status", "level", "type",
       "policy", "protocol" ],
     "contains", [TypeString, TypeInteger, TypeBoolean]⟩,
    ⟨[ "json", "raw", "patch", "template", "customdata", "extradata",
       "override", "manifest" ],
     "contains", [TypeString, TypeObject, TypeArray]⟩,
    ⟨[ "containerport", "servicetype", "ingresstype", "secrettype",
       "podannotations", "accessmodes", "pathtype", "readinessprobe",
       "livenessprobe", "startupprobe", "volumesource", "volumetype",
       "service.containerport" ],
     "contains", [TypeString, TypeObject, TypeArray]⟩ ]

/-- One fragment match, per the switch on matchType inside
shouldSupportMultipleTypes (unknown modes never match). -/
def matchesPattern (matchType pathLower pat : String) : Bool :=
  if matchType = "contains" then strContains pathLower pat
  else if matchType = "suffix" then strEnds pathLower pat
  else if matchType = "exact" then pathLower = pat
  else if matchType = "exact-or-suffix" then
    pathLower = pat || strEnds pathLower ("." ++ pat)
  else false

/-- Scan the rules in order; first fragment match wins. -/
def findPatternMatch (pathLower : String) : List patternMapping → Option (List SchemaType)
  | [] => none
  | m :: ms =>
    match m.patterns.find? (fun pat => matchesPattern m.matchType pathLower pat) with
    | some _ => some m.types
    | none => findPatternMatch pathLower ms

/-- shouldSupportMultipleTypes: pattern-table lookup over the lowercased path. -/
def shouldSupportMultipleTypes (path : String) : Bool × List SchemaType :=
  match findPatternMatch (strLower path) patternMappings with
  | some ts => (true, ts)
  | none => (false, [])

/-! ## Scalar format detection (type_detection.go) -/

/-- isDate: length 10 with dashes at byte positions 4 and 7. -/
def isDate (s : String) : Bool :=
  s.data.length = 10 && s.data.getD 4 ' ' = '-' && s.data.getD 7 ' ' = '-'

/-- isDateTime: length at least 19, dashes at 4 and 7, a T at 10. -/
def isDateTime (s : String) : Bool :=
  19 ≤ s.data.length && s.data.getD 4 ' ' = '-' && s.data.getD 7 ' ' = '-'
    && s.data.getD 10 ' ' = 'T'

/-- isEmail: contains an at sign and a dot. -/
def isEmail (s : String) : Bool :=
  strContains s "@" && strContains s "."

/-- isURI: has an http or https scheme. -/
def isURI (s : String) : Bool :=
  strStarts s "http://" || strStarts s "https://"

/-- isLikelyYAMLOrJSON (schema_generator.go): after trimming, surrounded by
braces or brackets, or some non-blank non-comment line contains a colon. -/
def isLikelyYAMLOrJSON (s : String) : Bool :=
  let t := strTrim s
  if (strStarts t "\x7b" && strEnds t "\x7d") || (strStarts t "[" && strEnds t "]") then
    true
  else
    (strLines t).any (fun line =>
      let l := strTrim line
      !(l = "" || strStarts l "#") && strContains l ":")

/-! ## Mixed-type detection for sequences (type_detection.go) -/

/-- The class label hasMixedTypes computes for one element: the nil branch
yields "null", the integer kinds "integer", the float kinds "float", and the
default branch uses reflect's Kind.String(), which is "bool", "string",
"slice" and "map" for the remaining Value Node kinds. -/
def goKindClass : Value → String
  | .null => "null"
  | .bool _ => "bool"
  | .int _ => "integer"
  | .float _ => "float"
  | .str _ => "string"
  | .arr _ => "slice"
  | .map _ => "map"

/-- Add a class label to the label collection if not yet present (the
`foundTypes[...] = true` map insert; insertion order retained in the model,
membership is all the code observes). -/
def insertClass (cs : List String) (c : String) : List String :=
  if c ∈ cs then cs else cs ++ [c]

/-- The distinct class labels occurring in a list of elements. -/
def collectClasses (items : List Value) : List String :=
  items.foldl (fun acc v => insertClass acc (goKindClass v)) []

/-- hasMixedTypes: false for lists of at most one element, else true exactly
when more than one class label is found.  (The Go loop also returns true as
soon as a second label appears; since the label set only grows, the early
return is observationally identical to the final check modelled here.) -/
def hasMixedTypes (items : List Value) : Bool :=
  if items.length ≤ 1 then false
  else 1 < (collectClasses items).length

/-- The class label InferArrayItemsWithMultipleTypes computes per element
when building the union: integer and float kinds both map to "number". -/
def unionClassName : Value → String
  | .null => "null"
  | .bool _ => "boolean"
  | .int _ => "number"
  | .float _ => "number"
  | .str _ => "string"
  | .map _ => "object"
  | .arr _ => "array"

/-- The class-label-to-SchemaType translation used when turning the typeMap
into the emitted type list. -/
def classToType : String → Option SchemaType
  | "null" => some TypeNull
  | "boolean" => some TypeBoolean
  | "integer" => some TypeInteger
  | "number" => some TypeNumber
  | "string" => some TypeString
  | "object" => some TypeObject
  | "array" => some TypeArray
  | _ => none

/-- The union type list for a mixed-type array: distinct per-element class
labels, translated to SchemaType tags.  (Go iterates the typeMap in
unspecified order; the model fixes first-seen order, and the claims about it
only concern membership.) -/
def mixedUnionTypes (items : List Value) : List SchemaType :=
  (items.foldl (fun acc v => insertClass acc (unionClassName v)) []).filterMap classToType

/-! ## The Type Inferrer (inferSchema) -/

/-- GeneratorOptions (json_schema.go), the policy flags threaded through
inference. -/
structure GeneratorOptions where
  schemaVersion : String
  title : String
  description : String
  requireByDefault : Bool
  includeExamples : Bool
  extractDescriptions : Bool
  debug : Bool

/-- DefaultOptions: draft-07, default title, examples and descriptions on. -/
def DefaultOptions : GeneratorOptions :=
  ⟨"http://json-schema.org/draft-07/schema#", "Helm Values Schema", "",
   false, true, true, false⟩

/-- The `if hasMultipleTypes { schema.Type = types }` pattern-table override
applied after structural inference. -/
def patternType (path : String) (structural : STy) : STy :=
  match shouldSupportMultipleTypes path with
  | (true, ts) => .many ts
  | (false, _) => structural

/-- The key-shape heuristic of the mapping branch: any key whose lowercase
form ends in one of the structural indicator suffixes switches this object
to the [object, string] union.  (Both Go loops assign the same union, so
the two loops with break collapse to one disjunction per key.) -/
def mapKeySuggestsUnion (k : String) : Bool :=
  let kl := strLower k
  strEnds kl "annotations" || strEnds kl "labels" || strEnds kl "nodeselector" ||
  strEnds kl "affinity" || strEnds kl "selector" ||
  strEnds kl "tolerations" || strEnds kl "volumes" || strEnds kl "mounts"

mutual

/-- inferSchema (type_detection.go): one Schema node per Value Node, by kind,
with the pattern-table override applied where the Go code applies it.  The
Go signature returns (Schema, error); with the closed Value union no branch
can construct an error (the error returns only propagate recursive failures,
and the base cases never fail), so the embedding is total. -/
def inferSchema (g : GeneratorOptions) (v : Value) (path : String) : Schema :=
  match v with
  | .null =>
    Schema.mk "" "" "" (patternType path (.one TypeNull)) "" none [] none none none
      [] none [] path
  | .bool b =>
    Schema.mk "" "" "" (patternType path (.one TypeBoolean)) "" none [] none none none
      [] (if g.includeExamples then some (.bool b) else none) [] path
  | .int n =>
    Schema.mk "" "" "" (patternType path (.one TypeInteger)) "" none [] none none none
      [] none (if g.includeExamples then [.int n] else []) path
  | .float q =>
    Schema.mk "" "" "" (patternType path (.one TypeNumber)) "" none [] none none none
      [] none (if g.includeExamples then [.float q] else []) path
  | .str s =>
    let m := shouldSupportMultipleTypes path
    let t0 : STy :=
      if m.1 then .many m.2
      else if isLikelyYAMLOrJSON s then .many [TypeString, TypeObject]
      else .one TypeString
    let fmt : String :=
      if m.1 || isLikelyYAMLOrJSON s then ""
      else if isDate s then "date"
      else if isDateTime s then "date-time"
      else if isEmail s then "email"
      else if isURI s then "uri"
      else ""
    let t1 : STy :=
      if (path = "enabled" || strEnds path ".enabled") && s = "-" then
        .many [TypeString, TypeBoolean]
      else t0
    Schema.mk "" "" "" t1 fmt none [] none none none
      [] none (if g.includeExamples then [.str s] else []) path
  | .arr elems =>
    match elems with
    | [] =>
      Schema.mk "" "" "" (patternType path (.one TypeArray)) "" none [] none none none
        [] none [] path
    | x :: xs =>
      let itemsSchema : Schema :=
        if hasMixedTypes (x :: xs) then
          Schema.mk "" "" ""
            (InferArrayItemsWithMultipleTypes g (x :: xs) path).type
            "" none [] none none none [] none [] ""
        else
          inferSchema g x (path ++ "[0]")
      Schema.mk "" "" "" (patternType path (.one TypeArray)) "" none []
        (some itemsSchema) none none [] none [] path
  | .map entries =>
    let t0 : STy :=
      if entries.any (fun kv => mapKeySuggestsUnion kv.1) then
        .many [TypeObject, TypeString]
      else .one TypeObject
    let props := inferProps g entries path
    let req : List String :=
      if g.requireByDefault then
        (entries.filter (fun kv => !kv.2.isNull)).map Prod.fst
      else []
    Schema.mk "" "" "" (patternType path t0) "" (some props) req none none none
      [] none [] path

/-- InferArrayItemsWithMultipleTypes: for a mixed-type array produce the
union-typed schema directly, otherwise infer from the first element; empty
arrays fall back to a bare array schema. -/
def InferArrayItemsWithMultipleTypes (g : GeneratorOptions) (items : List Value)
    (path : String) : Schema :=
  if hasMixedTypes items then
    Schema.mk "" "" "" (.many (mixedUnionTypes items)) "" none [] none none none
      [] none [] path
  else
    match items with
    | x :: _ => inferSchema g x (path ++ "[0]")
    | [] =>
      Schema.mk "" "" "" (.one TypeArray) "" none [] none none none [] none [] path

/-- The property loop of the mapping branch: infer each entry at
path.key, keeping the entry order of the association list. -/
def inferProps (g : GeneratorOptions) (entries : List (String × Value))
    (path : String) : List (String × Schema) :=
  match entries with
  | [] => []
  | (k, v) :: rest => (k, inferSchema g v (path ++ "." ++ k)) :: inferProps g rest path

end

/-! ## YAML decoding boundary (schema_generator.go) -/

/-- The decoded YAML value before convertYAMLToStringMap: mappings may carry
arbitrary keys (Go map[any]any). -/
inductive YVal where
  | null
  | bool (b : Bool)
  | int (n : Int)
  | float (q : ℚ)
  | str (s : String)
  | arr (elems : List YVal)
  | map (entries : List (YVal × YVal))

/-- Rendering of a key for the non-string-key error message, as fmt's %v
renders it: numbers and booleans print their value, strings print verbatim,
nil prints <nil>.  Composite keys are abbreviated (no claim exercises them). -/
def yvalRender : YVal → String
  | .null => "<nil>"
  | .bool b => toString b
  | .int n => toString n
  | .float q => toString q
  | .str s => s
  | .arr _ => "[...]"
  | .map _ => "map[...]"

/-- The %T type name of the converted root, used in the root-must-be-a-map
error message. -/
def valueTypeName : Value → String
  | .null => "<nil>"
  | .bool _ => "bool"
  | .int _ => "int"
  | .float _ => "float64"
  | .str _ => "string"
  | .arr _ => "[]interface {}"
  | .map _ => "map[string]interface {}"

mutual

/-- convertYAMLToStringMap: rebuild the decoded tree with string-keyed
mappings, failing on the first non-string key. -/
def convertYAMLToStringMap : YVal → Except String Value
  | .null => .ok .null
  | .bool b => .ok (.bool b)
  | .int n => .ok (.int n)
  | .float q => .ok (.float q)
  | .str s => .ok (.str s)
  | .arr elems => do
    let l ← convertElems elems
    return .arr l
  | .map entries => do
    let l ← convertEntries entries
    return .map l

/-- The map[any]any loop of convertYAMLToStringMap. -/
def convertEntries : List (YVal × YVal) → Except String (List (String × Value))
  | [] => .ok []
  | (k, v) :: rest =>
    match k with
    | .str s => do
      let cv ← convertYAMLToStringMap v
      let cr ← convertEntries rest
      return (s, cv) :: cr
    | _ => .error ("non-string key in YAML: " ++ yvalRender k)

/-- The []any loop of convertYAMLToStringMap. -/
def convertElems : List YVal → Except String (List Value)
  | [] => .ok []
  | v :: rest => do
    let cv ← convertYAMLToStringMap v
    let cr ← convertElems rest
    return cv :: cr

end

/-! ## The Comment Extractor (extract_comments.go) -/

/-- Insert-or-replace into an association list (a Go map write; insertion
order retained, membership is what the code observes). -/
def setAssoc {β : Type} (l : List (String × β)) (k : String) (v : β) :
    List (String × β) :=
  match l with
  | [] => [(k, v)]
  | (k1, v1) :: rest => if k1 = k then (k, v) :: rest else (k1, v1) :: setAssoc rest k v

/-- Insert-or-replace into a Nat-keyed association list (indentToPath). -/
def setAssocNat {β : Type} (l : List (Nat × β)) (k : Nat) (v : β) :
    List (Nat × β) :=
  match l with
  | [] => [(k, v)]
  | (k1, v1) :: rest => if k1 = k then (k, v) :: rest else (k1, v1) :: setAssocNat rest k v

/-- Go map lookup returning an Option. -/
def lookupAssoc {β : Type} (l : List (String × β)) (k : String) : Option β :=
  match l with
  | [] => none
  | (k1, v1) :: rest => if k1 = k then some v1 else lookupAssoc rest k

/-- Go map lookup for the Nat-keyed indentToPath map. -/
def lookupAssocNat {β : Type} (l : List (Nat × β)) (k : Nat) : Option β :=
  match l with
  | [] => none
  | (k1, v1) :: rest => if k1 = k then some v1 else lookupAssocNat rest k

/-- The scanner state of ExtractFromYAML: the comments map, the
indentation-to-path map, the pending and top-level comment buffers, the
indentation stack and the first-key flag. -/
structure ExtractState where
  comments : List (String × String)
  indentToPath : List (Nat × List String)
  pending : String
  topLevel : String
  lineIndents : List Nat
  foundFirstKey : Bool

/-- The initial extractor state. -/
def ExtractState.init : ExtractState := ⟨[], [], "", "", [], false⟩

/-- The key of a key line: the trimmed text before the first colon of the
trimmed line (strings.SplitN(strings.TrimSpace(line), ":", 2)[0], trimmed). -/
def lineKey (line : String) : String :=
  strTrim ⟨(strTrim line).data.takeWhile (fun c => c ≠ ':')⟩

/-- The content of a comment line: strip the leading hash after trimming,
trim again, then drop an optional Helm-style double-dash marker. -/
def commentContent (line : String) : String :=
  let c0 := strTrim (strStripLead (strTrim line) "#")
  let c1 := strStripLead c0 "-- "
  strStripLead c1 "--"

/-- One iteration of the ExtractFromYAML line loop. -/
def processLine (st : ExtractState) (line : String) : ExtractState :=
  if strTrim line = "" then st
  else if strStarts (strTrim line) "#" then
    let comment := commentContent line
    let topLevel :=
      if !st.foundFirstKey then
        if st.topLevel = "" then comment else st.topLevel ++ "\n" ++ comment
      else st.topLevel
    let pending :=
      if st.pending = "" then comment else st.pending ++ "\n" ++ comment
    ⟨st.comments, st.indentToPath, pending, topLevel, st.lineIndents, st.foundFirstKey⟩
  else if strContains line ":" then
    let indent := (line.data.takeWhile (fun c => c = ' ')).length
    let key := lineKey line
    let parentLevel := st.lineIndents.reverse.find? (fun lvl => lvl < indent)
    let base : List String :=
      match parentLevel with
      | some lvl => (lookupAssocNat st.indentToPath lvl).getD []
      | none => []
    let currentPath := base ++ [key]
    let lineIndents :=
      match st.lineIndents.findIdx? (fun lvl => lvl = indent) with
      | some i => st.lineIndents.take (i + 1)
      | none => st.lineIndents ++ [indent]
    let indentToPath := setAssocNat st.indentToPath indent currentPath
    let pathStr := strJoin "." currentPath
    let comments :=
      if st.pending ≠ "" then setAssoc st.comments pathStr st.pending else st.comments
    ⟨comments, indentToPath, "", st.topLevel, lineIndents, true⟩
  else st

/-- The line loop of ExtractFromYAML followed by the final top-level-comment
store: scan all lines, then record the top-level comment under the empty
path when one was seen. -/
def ExtractFromYAMLLines (lines : List String) : List (String × String) :=
  let st := lines.foldl processLine ExtractState.init
  if st.topLevel ≠ "" then setAssoc st.comments "" st.topLevel else st.comments

/-- ExtractFromYAML: split the raw source into lines and run the line loop. -/
def ExtractFromYAML (yamlData : String) : List (String × String) :=
  ExtractFromYAMLLines (strLines yamlData)

/-- GetComment: map access with the Go zero value for a missing key. -/
def GetComment (comments : List (String × String)) (path : String) : String :=
  (lookupAssoc comments path).getD ""

mutual

/-- ApplyCommentsToSchema: set the description from the comment recorded at
this node's helm path when the description is still empty, then recurse into
properties and items. -/
def ApplyCommentsToSchema (cm : List (String × String)) : Schema → Schema
  | .mk a b d t f p r i mn mx e df ex h =>
    let d1 :=
      match lookupAssoc cm h with
      | some c => if d = "" then c else d
      | none => d
    let p1 :=
      match p with
      | some props => some (applyCommentsProps cm props)
      | none => none
    let i1 :=
      match i with
      | some it => some (ApplyCommentsToSchema cm it)
      | none => none
    .mk a b d1 t f p1 r i1 mn mx e df ex h

/-- The properties loop of ApplyCommentsToSchema. -/
def applyCommentsProps (cm : List (String × String)) :
    List (String × Schema) → List (String × Schema)
  | [] => []
  | (k, s) :: rest => (k, ApplyCommentsToSchema cm s) :: applyCommentsProps cm rest

end

/-! ## Generation entry points (schema_generator.go) -/

/-- The root property loop of GenerateFromMap: each top-level entry is
inferred at path equal to its own key. -/
def generateRootProps (g : GeneratorOptions) : List (String × Value) → List (String × Schema)
  | [] => []
  | (k, v) :: rest => (k, inferSchema g v k) :: generateRootProps g rest

/-- GenerateFromMap: the root object schema with options metadata and the
inferred property schemas.  (The Go version returns (Schema, error) but its
only error source is inferSchema, which is total here.) -/
def GenerateFromMap (g : GeneratorOptions) (data : List (String × Value)) : Schema :=
  let req : List String :=
    if g.requireByDefault then
      (data.filter (fun kv => !kv.2.isNull)).map Prod.fst
    else []
  Schema.mk g.schemaVersion g.title g.description (.one TypeObject) ""
    (some (generateRootProps g data)) req none none none [] none [] ""

/-- GenerateFromYAML, modelled from the point after yaml.Unmarshal (the YAML
decoder is an excluded collaborator): convert to string-keyed maps, require a
mapping at the root, build the schema, and, when extractDescriptions is set,
extract comments from the raw text, apply the top-level comment to the root
description and merge per-path comments into the tree. -/
def GenerateFromYAML (g : GeneratorOptions) (decoded : YVal) (yamlText : String) :
    Except String Schema :=
  match convertYAMLToStringMap decoded with
  | .error e => .error ("failed to convert YAML: " ++ e)
  | .ok mapped =>
    match mapped with
    | .map dataMap =>
      let schema := GenerateFromMap g dataMap
      if g.extractDescriptions then
        let cm := ExtractFromYAML yamlText
        let topComment := GetComment cm ""
        let schema1 :=
          if topComment ≠ "" && schema.description = "" then
            schema.setDescription topComment
          else schema
        .ok (ApplyCommentsToSchema cm schema1)
      else .ok schema
    | other => .error ("root YAML value must be a map, got " ++ valueTypeName other)

/-! ## The Best-Practices Linter (helm_best_practices.go) -/

/-- ValidationLevel: diagnostic severity. -/
inductive ValidationLevel where
  | error
  | warning
  | info
deriving DecidableEq

/-- ValidationIssue: one diagnostic. -/
structure ValidationIssue where
  path : String
  message : String
  level : ValidationLevel
deriving DecidableEq

/-- MaxNestingDepth: the recommended maximum nesting depth. -/
def MaxNestingDepth : Nat := 5

/-- isTypeInArray: membership in a []SchemaType union; any other dynamic
shape of the type field (single tag, nil) falls through the type switch to
false. -/
def isTypeInArray (t : SchemaType) : STy → Bool
  | .many ts => ts.contains t
  | _ => false

/-- The array-node condition used by the linter:
`schema.Type == TypeArray || (schema.Type != nil && isTypeInArray(TypeArray, schema.Type))`. -/
def linterIsArray (s : Schema) : Bool :=
  s.type = .one TypeArray || (s.type ≠ .missing && isTypeInArray TypeArray s.type)

/-- The per-property body of checkNamingConventions.  Go evaluates
`strings.ToLower(propName[:1]) != propName[:1]` unconditionally; for the
empty property name the slice propName[:1] is out of bounds and the program
panics, modelled as `none`. -/
def namingIssues (path : String) : List (String × Schema) → Option (List ValidationIssue)
  | [] => some []
  | (propName, _) :: rest =>
    match propName.data with
    | [] => none
    | c :: _ => do
      let i1 : List ValidationIssue :=
        if Char.toLower c ≠ c then
          [⟨path ++ "." ++ propName,
            "Property names should follow camelCase convention", .warning⟩]
        else []
      let i2 : List ValidationIssue :=
        if strContains propName "-" || strContains propName "_" then
          [⟨path ++ "." ++ propName,
            "Property names should not contain hyphens or underscores", .error⟩]
        else []
      let more ← namingIssues path rest
      return i1 ++ i2 ++ more

/-- checkNamingConventions: skipped at the root and for nodes without a
properties map. -/
def checkNamingConventions (s : Schema) (path : String) :
    Option (List ValidationIssue) :=
  match s.properties with
  | none => some []
  | some props => if path = "" then some [] else namingIssues path props

/-- checkNestingDepth. -/
def checkNestingDepth (depth : Nat) (path : String) : List ValidationIssue :=
  if MaxNestingDepth < depth then
    [⟨path,
      "Excessive nesting depth (" ++ toString depth ++
        " levels). Consider flattening the structure or using dot notation for paths.",
      .warning⟩]
  else []

/-- checkArrayStructures: missing items warning, and the element-count info
suggestion for paths containing the sensitive fragments (note: the Go code
uses the case-sensitive strings.Contains here). -/
def checkArrayStructures (s : Schema) (path : String) : List ValidationIssue :=
  if linterIsArray s then
    (if s.items.isNone then
      [⟨path, "Array should define an items schema for validation", .warning⟩]
     else []) ++
    (if path ≠ "" &&
        (strContains path "secret" || strContains path "config" ||
         strContains path "certificate") then
      if s.minItems.isNone && s.maxItems.isNone then
        [⟨path, "Consider adding minItems/maxItems constraints for this array", .info⟩]
      else []
     else [])
  else []

/-- checkDocumentation: description completeness and the leaf example
suggestion. -/
def checkDocumentation (s : Schema) (path : String) : List ValidationIssue :=
  if path = "" then []
  else
    (if s.description = "" then
      let lvl : ValidationLevel :=
        if (path.data.filter (fun c => c = '.')).length ≤ 1 then .warning else .info
      [⟨path, "Property should have a description", lvl⟩]
     else []) ++
    (let isLeaf := ((s.properties.getD []).length = 0)
     if isLeaf && s.examples.isEmpty && s.default.isNone &&
        s.type ≠ .one TypeObject && s.type ≠ .one TypeArray then
      [⟨path, "Consider adding examples or default value", .info⟩]
     else [])

mutual

/-- validateSchema: the four per-node checks in order, then the recursive
walk into properties and (for array nodes) items.  The Option layer carries
the potential panic of checkNamingConventions. -/
def validateSchema : Schema → String → Nat → Option (List ValidationIssue)
  | .mk a b d t f p r i mn mx e df ex h, path, depth => do
    let s := Schema.mk a b d t f p r i mn mx e df ex h
    let naming ← checkNamingConventions s path
    let own := naming ++ checkNestingDepth depth path ++
      checkArrayStructures s path ++ checkDocumentation s path
    let propIss ←
      match p with
      | some props => validateProps props path depth
      | none => pure []
    let itemIss ←
      if linterIsArray s then
        match i with
        | some it => validateSchema it (path ++ "[]") (depth + 1)
        | none => pure []
      else pure []
    return own ++ propIss ++ itemIss

/-- The properties recursion of validateSchema. -/
def validateProps : List (String × Schema) → String → Nat → Option (List ValidationIssue)
  | [], _, _ => pure []
  | (k, c) :: rest, path, depth => do
    let propPath := if path = "" then k else path ++ "." ++ k
    let hd ← validateSchema c propPath (depth + 1)
    let more ← validateProps rest path depth
    return hd ++ more

end

/-- ValidateHelmBestPractices: run the recursive validation from the root. -/
def ValidateHelmBestPractices (s : Schema) : Option (List ValidationIssue) :=
  validateSchema s "" 0

/-! ## The Enricher (pkg/json-schema-generator/generate.go) -/

/-- isImageConfig: an object-typed node with a properties map containing both
a repository and a tag key. -/
def isImageConfig (s : Schema) : Bool :=
  match s.properties with
  | none => false
  | some props =>
    s.type = .one TypeObject &&
    props.any (fun kv => kv.1 = "repository") && props.any (fun kv => kv.1 = "tag")

/-- isResourcesConfig: an object-typed node with a properties map containing
a limits or a requests key. -/
def isResourcesConfig (s : Schema) : Bool :=
  match s.properties with
  | none => false
  | some props =>
    s.type = .one TypeObject &&
    (props.any (fun kv => kv.1 = "limits") || props.any (fun kv => kv.1 = "requests"))

/-- createImageSchema: the canonical container-image fragment. -/
def createImageSchema (path : String) : Schema :=
  Schema.mk "" "" "Container image configuration" (.one TypeObject) ""
    (some
      [("repository",
        Schema.mk "" "" "Container image repository" (.one TypeString) "" none []
          none none none [] none [] ""),
       ("tag",
        Schema.mk "" "" "Container image tag" (.one TypeString) "" none []
          none none none [] (some (.str "latest")) [] ""),
       ("pullPolicy",
        Schema.mk "" "" "Image pull policy" (.one TypeString) "" none []
          none none none ["Always", "IfNotPresent", "Never"]
          (some (.str "IfNotPresent")) [] "")])
    ["repository"] none none none [] none [] path

/-- createResourcesSchema: the canonical resource-requirements fragment. -/
def createResourcesSchema (path : String) : Schema :=
  Schema.mk "" "" "CPU/Memory resource requirements" (.one TypeObject) ""
    (some
      [("limits",
        Schema.mk "" "" "Resource limits" (.one TypeObject) ""
          (some
            [("cpu",
              Schema.mk "" "" "CPU limit" (.one TypeString) "" none [] none none none
                [] none [.str "100m", .str "0.1"] ""),
             ("memory",
              Schema.mk "" "" "Memory limit" (.one TypeString) "" none [] none none none
                [] none [.str "128Mi", .str "1Gi"] "")])
          [] none none none [] none [] ""),
       ("requests",
        Schema.mk "" "" "Resource requests" (.one TypeObject) ""
          (some
            [("cpu",
              Schema.mk "" "" "CPU request" (.one TypeString) "" none [] none none none
                [] none [.str "100m", .str "0.1"] ""),
             ("memory",
              Schema.mk "" "" "Memory request" (.one TypeString) "" none [] none none none
                [] none [.str "128Mi", .str "1Gi"] "")])
          [] none none none [] none [] "")])
    [] none none none [] none [] path

mutual

/-- SpecializeSchemaForHelm: replace a recognized named shape with its
canonical fragment and return immediately; otherwise recurse into the
properties of object-typed nodes and the items of array-typed nodes. -/
def SpecializeSchemaForHelm : Schema → Schema
  | .mk a b d t f p r i mn mx e df ex h =>
    let s := Schema.mk a b d t f p r i mn mx e df ex h
    if isImageConfig s then createImageSchema h
    else if isResourcesConfig s then createResourcesSchema h
    else
      let p1 :=
        if t = .one TypeObject then
          match p with
          | some props => some (specializeProps props)
          | none => none
        else p
      let i1 :=
        if t = .one TypeArray then
          match i with
          | some it => some (SpecializeSchemaForHelm it)
          | none => none
        else i
      .mk a b d t f p1 r i1 mn mx e df ex h

/-- The properties loop of SpecializeSchemaForHelm. -/
def specializeProps : List (String × Schema) → List (String × Schema)
  | [] => []
  | (k, c) :: rest => (k, SpecializeSchemaForHelm c) :: specializeProps rest

end

/-! ## Projection lemmas -/

@[simp] theorem Schema.type_mk (a b d : String) (t : STy) (f : String)
    (p : Option (List (String × Schema))) (r : List String) (i : Option Schema)
    (mn mx : Option Int) (e : List String) (df : Option Value) (ex : List Value)
    (h : String) :
    (Schema.mk a b d t f p r i mn mx e df ex h).type = t := rfl

@[simp] theorem Schema.description_mk (a b d : String) (t : STy) (f : String)
    (p : Option (List (String × Schema))) (r : List String) (i : Option Schema)
    (mn mx : Option Int) (e : List String) (df : Option Value) (ex : List Value)
    (h : String) :
    (Schema.mk a b d t f p r i mn mx e df ex h).description = d := rfl

@[simp] theorem Schema.properties_mk (a b d : String) (t : STy) (f : String)
    (p : Option (List (String × Schema))) (r : List String) (i : Option Schema)
    (mn mx : Option Int) (e : List String) (df : Option Value) (ex : List Value)
    (h : String) :
    (Schema.mk a b d t f p r i mn mx e df ex h).properties = p := rfl

@[simp] theorem Schema.items_mk (a b d : String) (t : STy) (f : String)
    (p : Option (List (String × Schema))) (r : List String) (i : Option Schema)
    (mn mx : Option Int) (e : List String) (df : Option Value) (ex : List Value)
    (h : String) :
    (Schema.mk a b d t f p r i mn mx e df ex h).items = i := rfl

@[simp] theorem Schema.helmPath_mk (a b d : String) (t : STy) (f : String)
    (p : Option (List (String × Schema))) (r : List String) (i : Option Schema)
    (mn mx : Option Int) (e : List String) (df : Option Value) (ex : List Value)
    (h : String) :
    (Schema.mk a b d t f p r i mn mx e df ex h).helmPath = h := rfl

/-! ## C6: hasMixedTypes on the pinned examples -/

/-- C6: hasMixedTypes returns false for the empty list and for every
one-element list, true for [1, "a"], false for [1, 2, 3], and true for
[1, 2.5]; integer and float are distinct classes for the heterogeneity
decision, yet the union built for the mixed array [1, 2.5] carries the
single tag number. -/
theorem hasMixedTypes_pinned_examples :
    hasMixedTypes [] = false ∧
    (∀ x : Value, hasMixedTypes [x] = false) ∧
    hasMixedTypes [.int 1, .str "a"] = true ∧
    hasMixedTypes [.int 1, .int 2, .int 3] = false ∧
    hasMixedTypes [.int 1, .float (5 / 2)] = true ∧
    (∀ (g : GeneratorOptions) (p : String),
      (InferArrayItemsWithMultipleTypes g [.int 1, .float (5 / 2)] p).type =
        .many [TypeNumber]) :=
  ⟨by decide, fun _ => rfl, by decide, by decide, by decide, fun _ _ => rfl⟩

/-! ## C7: comment-to-path association on the pinned source texts -/

/-- C7: on the source text consisting of the line # Comment for key2
followed by the key line key2: value2, extract associates path key2 with
the text Comment for key2; with nested indentation, the comment line
immediately preceding nested1: value3 under parent key key3 is associated
with the dotted path key3.nested1. -/
theorem ExtractFromYAML_basic_associations :
    lookupAssoc (ExtractFromYAML "# Comment for key2\nkey2: value2") "key2" =
      some "Comment for key2" ∧
    lookupAssoc (ExtractFromYAML "key3:\n  # Comment for nested1\n  nested1: value3")
        "key3.nested1" = some "Comment for nested1" := by
  exact ⟨by decide, by decide⟩

/-! ## C1: the pattern-table override on matched paths -/

/-- C1 counterexample: at path enabled with the string value "-", the
Pattern Table lookup matches with type list [boolean, string], yet
inferSchema returns the type list [string, boolean] — not the rule's list
verbatim and in order. -/
theorem inferSchema_enabled_dash_counterexample :
    (shouldSupportMultipleTypes "enabled").1 = true ∧
    (shouldSupportMultipleTypes "enabled").2 = [TypeBoolean, TypeString] ∧
    (inferSchema DefaultOptions (.str "-") "enabled").type = .many [TypeString, TypeBoolean] ∧
    (inferSchema DefaultOptions (.str "-") "enabled").type ≠
      .many (shouldSupportMultipleTypes "enabled").2 := by
  refine ⟨by decide, by decide, by decide, by decide⟩

/-- Unfolding patternType under a successful lookup. -/
theorem patternType_of_match {p : String} {ts : List SchemaType}
    (hp : shouldSupportMultipleTypes p = (true, ts)) (st : STy) :
    patternType p st = .many ts := by
  simp [patternType, hp]

/-- C1 (amended): for every path matched by the Pattern Table, inferSchema
returns a node whose type set is the matched rule's type list, verbatim and
in order, for every kind of value — except when the value is the literal
string "-" and the path equals enabled or ends in .enabled, where the
string branch's special case subsequently replaces the type with
[string, boolean]. -/
theorem inferSchema_pattern_match_overrides (g : GeneratorOptions) (v : Value) (p : String)
    (hm : (shouldSupportMultipleTypes p).1 = true)
    (hex : ¬(v = .str "-" ∧ (p = "enabled" ∨ strEnds p ".enabled" = true))) :
    (inferSchema g v p).type = .many (shouldSupportMultipleTypes p).2 := by
  rcases hp : shouldSupportMultipleTypes p with ⟨b, ts⟩
  rw [hp] at hm
  simp only at hm
  subst hm
  show (inferSchema g v p).type = .many ts
  cases v with
  | null => simp [inferSchema, patternType_of_match hp]
  | bool b => simp [inferSchema, patternType_of_match hp]
  | int n => simp [inferSchema, patternType_of_match hp]
  | float q => simp [inferSchema, patternType_of_match hp]
  | str s =>
    by_cases hs : s = "-"
    · subst hs
      have h1 : ¬(p = "enabled") := fun hpe => hex ⟨rfl, Or.inl hpe⟩
      have h2 : strEnds p ".enabled" = false := by
        cases he : strEnds p ".enabled"
        · rfl
        · exact absurd ⟨rfl, Or.inr he⟩ hex
      simp [inferSchema, h1, h2, hp]
    · simp [inferSchema, hs, hp]
  | arr elems =>
    cases elems with
    | nil => simp [inferSchema, patternType_of_match hp]
    | cons x xs => simp [inferSchema, patternType_of_match hp]
  | map entries => simp [inferSchema, patternType_of_match hp]

/-- C1 witness: the matched path annotations with an integer value receives
the rule's type list. -/
theorem inferSchema_pattern_match_overrides_witness :
    (shouldSupportMultipleTypes "annotations").1 = true ∧
    (inferSchema DefaultOptions (.int 7) "annotations").type =
      .many (shouldSupportMultipleTypes "annotations").2 :=
  ⟨by decide,
   inferSchema_pattern_match_overrides DefaultOptions (.int 7) "annotations"
     (by decide) (fun h => nomatch h.1)⟩

/-! ## C2: structural inference for scalars at unmatched paths -/

/-- startsWithL is preserved by mapping a function over both lists. -/
theorem startsWithL_map (f : Char → Char) :
    ∀ (s pfx : List Char), startsWithL s pfx = true →
      startsWithL (s.map f) (pfx.map f) = true := by
  intro s pfx
  induction pfx generalizing s with
  | nil => intro _; cases s <;> rfl
  | cons p ps ih =>
    intro h
    cases s with
    | nil => exact absurd h (by simp [startsWithL])
    | cons c cs =>
      simp only [startsWithL, Bool.and_eq_true, decide_eq_true_eq] at h
      simp only [List.map_cons, startsWithL, Bool.and_eq_true, decide_eq_true_eq]
      exact ⟨by rw [h.1], ih cs h.2⟩

/-- strEnds is preserved by lowercasing both strings. -/
theorem strEnds_lower {p q : String} (h : strEnds p q = true) :
    strEnds (strLower p) (strLower q) = true := by
  unfold strEnds endsWithL at h
  show startsWithL ((List.map Char.toLower p.data).reverse)
    ((List.map Char.toLower q.data).reverse) = true
  rw [← List.map_reverse, ← List.map_reverse]
  exact startsWithL_map Char.toLower _ _ h

/-- findPatternMatch succeeds whenever some rule fragment matches. -/
theorem findPatternMatch_isSome {pl : String} :
    ∀ {ms : List patternMapping},
      (∃ m ∈ ms, ∃ pat ∈ m.patterns, matchesPattern m.matchType pl pat = true) →
      (findPatternMatch pl ms).isSome = true := by
  intro ms
  induction ms with
  | nil => rintro ⟨m, hm, _⟩; cases hm
  | cons m ms ih =>
    rintro ⟨m1, hm1, pat, hpat, hmatch⟩
    unfold findPatternMatch
    cases hf : m.patterns.find? (fun pat => matchesPattern m.matchType pl pat) with
    | some _ => rfl
    | none =>
      rcases List.mem_cons.mp hm1 with h | h
      · subst h
        have := List.find?_eq_none.mp hf pat hpat
        exact absurd hmatch this
      · exact ih ⟨m1, h, pat, hpat, hmatch⟩

/-- Every path ending in .enabled (or equal to enabled) is matched by the
Pattern Table. -/
theorem shouldSupport_of_enabled_suffix {p : String}
    (h : p = "enabled" ∨ strEnds p ".enabled" = true) :
    (shouldSupportMultipleTypes p).1 = true := by
  have hmem : (⟨["enabled"], "exact-or-suffix", [TypeBoolean, TypeString]⟩ : patternMapping)
      ∈ patternMappings := by
    unfold patternMappings
    exact List.mem_cons_of_mem _ (List.mem_cons_of_mem _ (List.mem_cons_self _ _))
  have hmatch : matchesPattern "exact-or-suffix" (strLower p) "enabled" = true := by
    rcases h with h | h
    · subst h; decide
    · have h2 : strEnds (strLower p) ".enabled" = true := by
        have := strEnds_lower (q := ".enabled") h
        simpa using this
      simp [matchesPattern, h2]
  have hsome := findPatternMatch_isSome
    ⟨_, hmem, "enabled", List.mem_cons_self _ _, hmatch⟩
  unfold shouldSupportMultipleTypes
  cases hfind : findPatternMatch (strLower p) patternMappings with
  | some ts => rfl
  | none => rw [hfind] at hsome; exact absurd hsome (by simp)

/-- An unmatched path is neither enabled nor a path ending in .enabled. -/
theorem unmatched_not_enabled {p : String}
    (hm : (shouldSupportMultipleTypes p).1 = false) :
    ¬(p = "enabled") ∧ strEnds p ".enabled" = false := by
  constructor
  · intro h
    have := shouldSupport_of_enabled_suffix (Or.inl h)
    rw [this] at hm; cases hm
  · cases he : strEnds p ".enabled"
    · rfl
    · have := shouldSupport_of_enabled_suffix (Or.inr he)
      rw [this] at hm; cases hm

/-- Unfolding patternType under a failed lookup. -/
theorem patternType_of_nomatch {p : String} {ts : List SchemaType}
    (hp : shouldSupportMultipleTypes p = (false, ts)) (st : STy) :
    patternType p st = st := by
  simp [patternType, hp]

/-- C2 counterexample: the path foo is unmatched, yet for the scalar string
"a: b" (which looks like serialized YAML) inferSchema returns the union
[string, object] rather than the single tag string. -/
theorem inferSchema_scalar_unmatched_counterexample :
    (shouldSupportMultipleTypes "foo").1 = false ∧
    (inferSchema DefaultOptions (.str "a: b") "foo").type = .many [TypeString, TypeObject] ∧
    (inferSchema DefaultOptions (.str "a: b") "foo").type ≠ .one TypeString := by
  refine ⟨by decide, by decide, by decide⟩

/-- C2 (amended): for every scalar value at a path not matched by the
Pattern Table, inferSchema returns the single structural tag of the
scalar's kind — boolean, integer, number, string respectively — except that
a string whose content looks like serialized YAML or JSON receives the
union [string, object] instead of the single tag string. -/
theorem inferSchema_scalar_unmatched (g : GeneratorOptions) (p : String)
    (hm : (shouldSupportMultipleTypes p).1 = false) :
    (∀ b, (inferSchema g (.bool b) p).type = .one TypeBoolean) ∧
    (∀ n, (inferSchema g (.int n) p).type = .one TypeInteger) ∧
    (∀ q, (inferSchema g (.float q) p).type = .one TypeNumber) ∧
    (∀ s, isLikelyYAMLOrJSON s = false →
      (inferSchema g (.str s) p).type = .one TypeString) ∧
    (∀ s, isLikelyYAMLOrJSON s = true →
      (inferSchema g (.str s) p).type = .many [TypeString, TypeObject]) := by
  rcases hq : shouldSupportMultipleTypes p with ⟨b, ts⟩
  rw [hq] at hm
  simp only at hm
  subst hm
  obtain ⟨h1, h2⟩ := unmatched_not_enabled (p := p) (by rw [hq])
  refine ⟨?_, ?_, ?_, ?_, ?_⟩
  · intro bv; simp [inferSchema, patternType_of_nomatch hq]
  · intro n; simp [inferSchema, patternType_of_nomatch hq]
  · intro q1; simp [inferSchema, patternType_of_nomatch hq]
  · intro s hsl; simp [inferSchema, hq, h1, h2, hsl]
  · intro s hsl; simp [inferSchema, hq, h1, h2, hsl]

/-- C2 witness: the unmatched path foo, instantiated with a boolean, an
integer, a float and a plain string. -/
theorem inferSchema_scalar_unmatched_witness :
    (shouldSupportMultipleTypes "foo").1 = false ∧
    (inferSchema DefaultOptions (.bool true) "foo").type = .one TypeBoolean ∧
    (inferSchema DefaultOptions (.int 42) "foo").type = .one TypeInteger ∧
    (inferSchema DefaultOptions (.float (5 / 2)) "foo").type = .one TypeNumber ∧
    (inferSchema DefaultOptions (.str "value2") "foo").type = .one TypeString :=
  ⟨by decide,
   (inferSchema_scalar_unmatched DefaultOptions "foo" (by decide)).1 true,
   (inferSchema_scalar_unmatched DefaultOptions "foo" (by decide)).2.1 42,
   (inferSchema_scalar_unmatched DefaultOptions "foo" (by decide)).2.2.1 (5 / 2),
   (inferSchema_scalar_unmatched DefaultOptions "foo" (by decide)).2.2.2.1 "value2" (by decide)⟩

/-! ## C4: the element-count suggestion for sensitive array paths -/

/-- An array-typed node with a defined items schema and no element-count
constraints, used to exercise checkArrayStructures. -/
def c4ArrayNode : Schema :=
  Schema.mk "" "" "desc" (.one TypeArray) "" none []
    (some (Schema.mk "" "" "item" (.one TypeString) "" none [] none none none
      [] none [.str "x"] ""))
    none none [] none [] ""

/-- A root schema holding the array node under the property name mySecret. -/
def c4Tree : Schema :=
  Schema.mk "" "" "" (.one TypeObject) "" (some [("mySecret", c4ArrayNode)]) []
    none none none [] none [] ""

/-- C4 counterexample: the path mySecret contains secret case-insensitively,
the node is an array without element-count constraints, yet
checkArrayStructures emits nothing for it and the whole linter run over the
enclosing tree emits no info-level diagnostic at all: the substring test in
the code is case-sensitive. -/
theorem checkArrayStructures_case_counterexample :
    strContains (strLower "mySecret") "secret" = true ∧
    strContains "mySecret" "secret" = false ∧
    linterIsArray c4ArrayNode = true ∧
    c4ArrayNode.minItems.isNone = true ∧
    c4ArrayNode.maxItems.isNone = true ∧
    checkArrayStructures c4ArrayNode "mySecret" = [] ∧
    (ValidateHelmBestPractices c4Tree).map (List.filter (fun i => i.level = .info)) =
      some [] := by
  refine ⟨by decide, by decide, by decide, by decide, by decide, by decide, by decide⟩

/-- C4 (amended): for every schema node whose type set includes array, whose
path case-sensitively contains one of the lowercase fragments secret, config
or certificate, and which has neither a minItems nor a maxItems constraint,
checkArrayStructures emits the info-level element-count suggestion at that
path. -/
theorem checkArrayStructures_info_constraint (s : Schema) (path : String)
    (harr : linterIsArray s = true) (hpath : path ≠ "")
    (hfrag : strContains path "secret" = true ∨ strContains path "config" = true ∨
      strContains path "certificate" = true)
    (hmin : s.minItems.isNone = true) (hmax : s.maxItems.isNone = true) :
    (⟨path, "Consider adding minItems/maxItems constraints for this array",
      ValidationLevel.info⟩ : ValidationIssue) ∈ checkArrayStructures s path := by
  have hc : (strContains path "secret" || strContains path "config" ||
      strContains path "certificate") = true := by
    rcases hfrag with h | h | h <;> simp [h]
  simp [checkArrayStructures, harr, hpath, hc, hmin, hmax]

/-- C4 witness: an array node with no element-count constraints at the path
secretList receives the info diagnostic. -/
theorem checkArrayStructures_info_constraint_witness :
    (⟨"secretList", "Consider adding minItems/maxItems constraints for this array",
      ValidationLevel.info⟩ : ValidationIssue)
      ∈ checkArrayStructures c4ArrayNode "secretList" :=
  checkArrayStructures_info_constraint c4ArrayNode "secretList" (by decide) (by decide)
    (Or.inl (by decide)) (by decide) (by decide)

/-! ## C3: recursion behavior of SpecializeSchemaForHelm -/

/-- A plain string leaf node. -/
def strLeaf : Schema :=
  Schema.mk "" "" "" (.one TypeString) "" none [] none none none [] none [] ""

/-- An image-shaped object (repository and tag properties) nested at helm
path img.inner. -/
def innerImage : Schema :=
  Schema.mk "" "" "" (.one TypeObject) ""
    (some [("repository", strLeaf), ("tag", strLeaf)]) [] none none none
    [] none [] "img.inner"

/-- An image-shaped object at helm path img that additionally carries the
nested image-shaped object under the property inner. -/
def outerImage : Schema :=
  Schema.mk "" "" "" (.one TypeObject) ""
    (some [("repository", strLeaf), ("tag", strLeaf), ("inner", innerImage)])
    [] none none none [] none [] "img"

/-- C3 counterexample: at a node where the container-image replacement
fires, SpecializeSchemaForHelm returns the canonical fragment immediately;
the nested image-shaped occurrence under the property inner is not visited
and not replaced — it is absent from the result altogether, so recursion
does not continue into the properties of a replaced node. -/
theorem SpecializeSchemaForHelm_early_return_counterexample :
    isImageConfig outerImage = true ∧
    isImageConfig innerImage = true ∧
    SpecializeSchemaForHelm outerImage = createImageSchema "img" ∧
    ((SpecializeSchemaForHelm outerImage).properties.getD []).all
      (fun kv => kv.1 ≠ "inner") = true := by
  refine ⟨rfl, rfl, rfl, rfl⟩

/-- specializeProps rewrites each property entry with
SpecializeSchemaForHelm, preserving membership. -/
theorem mem_specializeProps {k : String} {c : Schema} :
    ∀ {props : List (String × Schema)}, (k, c) ∈ props →
      (k, SpecializeSchemaForHelm c) ∈ specializeProps props := by
  intro props
  induction props with
  | nil => intro hmem; cases hmem
  | cons hd tl ih =>
    intro hmem
    obtain ⟨k1, c1⟩ := hd
    rcases List.mem_cons.mp hmem with h | h
    · rw [show k = k1 from congrArg Prod.fst h, show c = c1 from congrArg Prod.snd h]
      simp [specializeProps]
    · simp only [specializeProps]
      exact List.mem_cons_of_mem _ (ih h)

/-- A node recognized as a container-image shape is replaced wholesale by
the canonical fragment at its helm path. -/
theorem SpecializeSchemaForHelm_image (c : Schema) (himg : isImageConfig c = true) :
    SpecializeSchemaForHelm c = createImageSchema c.helmPath := by
  cases c with
  | mk a b d t f p r i mn mx e df ex h =>
    unfold SpecializeSchemaForHelm
    simp [himg]

/-- The properties of a non-replaced object-typed node after
specialization: each entry specialized in place. -/
theorem SpecializeSchemaForHelm_properties (a b d f : String) (r : List String)
    (i : Option Schema) (mn mx : Option Int) (e : List String) (df : Option Value)
    (ex : List Value) (h : String) (props : List (String × Schema))
    (h1 : isImageConfig
      (Schema.mk a b d (.one TypeObject) f (some props) r i mn mx e df ex h) = false)
    (h2 : isResourcesConfig
      (Schema.mk a b d (.one TypeObject) f (some props) r i mn mx e df ex h) = false) :
    (SpecializeSchemaForHelm
      (Schema.mk a b d (.one TypeObject) f (some props) r i mn mx e df ex h)).properties
      = some (specializeProps props) := by
  unfold SpecializeSchemaForHelm
  simp [h1, h2]

/-- A node recognized (only) as a resource-requirements shape is replaced
wholesale by the canonical resources fragment at its helm path. -/
theorem SpecializeSchemaForHelm_resources (c : Schema)
    (himg : isImageConfig c = false) (hres : isResourcesConfig c = true) :
    SpecializeSchemaForHelm c = createResourcesSchema c.helmPath := by
  cases c with
  | mk a b d t f p r i mn mx e df ex h =>
    unfold SpecializeSchemaForHelm
    simp [himg, hres]

/-- C3 (amended): SpecializeSchemaForHelm replaces an image-shaped node by
the canonical image fragment and a resources-shaped node by the canonical
resources fragment, returning immediately — the node's original children are
discarded, as the counterexample shows.  At a node where no replacement
occurred, it recurses into every properties entry exactly when the node's
type is exactly object and into the items slot exactly when the node's type
is exactly array (union-typed nodes are not descended into, all other fields
are untouched); consequently a named shape nested in a property of a
non-replaced exactly-object node, or in the items slot of a non-replaced
exactly-array node, is canonicalized in place. -/
theorem SpecializeSchemaForHelm_recursion (s : Schema) :
    (isImageConfig s = true →
      SpecializeSchemaForHelm s = createImageSchema s.helmPath) ∧
    (isImageConfig s = false → isResourcesConfig s = true →
      SpecializeSchemaForHelm s = createResourcesSchema s.helmPath) ∧
    (isImageConfig s = false → isResourcesConfig s = false →
      (SpecializeSchemaForHelm s).properties =
        (if s.type = .one TypeObject then Option.map specializeProps s.properties
         else s.properties) ∧
      (SpecializeSchemaForHelm s).items =
        (if s.type = .one TypeArray then Option.map SpecializeSchemaForHelm s.items
         else s.items)) ∧
    (isImageConfig s = false → isResourcesConfig s = false →
      s.type = .one TypeObject →
      ∀ (k : String) (c : Schema), (k, c) ∈ s.properties.getD [] →
        isImageConfig c = true →
        (k, createImageSchema c.helmPath) ∈
          (SpecializeSchemaForHelm s).properties.getD []) ∧
    (isImageConfig s = false → isResourcesConfig s = false →
      s.type = .one TypeArray →
      ∀ c : Schema, s.items = some c → isImageConfig c = true →
        (SpecializeSchemaForHelm s).items = some (createImageSchema c.helmPath)) := by
  refine ⟨fun himg => SpecializeSchemaForHelm_image s himg,
    fun himg hres => SpecializeSchemaForHelm_resources s himg hres, ?_, ?_, ?_⟩
  · intro himg hres
    cases s with
    | mk a b d t f p r i mn mx e df ex h =>
      constructor
      · unfold SpecializeSchemaForHelm
        simp only [himg, hres, Bool.false_eq_true, if_false, Schema.properties_mk,
          Schema.type_mk]
        by_cases ht : t = .one TypeObject
        · simp only [ht, if_true, ite_true]
          cases p <;> rfl
        · simp [ht]
      · unfold SpecializeSchemaForHelm
        simp only [himg, hres, Bool.false_eq_true, if_false, Schema.items_mk,
          Schema.type_mk]
        by_cases ht : t = .one TypeArray
        · simp only [ht, if_true, ite_true]
          cases i <;> rfl
        · simp [ht]
  · intro himg hres ht k c hmem himgc
    cases s with
    | mk a b d t f p r i mn mx e df ex h =>
      have ht1 : t = .one TypeObject := ht
      subst ht1
      cases p with
      | none => cases hmem
      | some props =>
        have hmem1 : (k, c) ∈ props := hmem
        rw [SpecializeSchemaForHelm_properties a b d f r i mn mx e df ex h props himg hres]
        rw [← SpecializeSchemaForHelm_image c himgc]
        exact mem_specializeProps hmem1
  · intro himg hres ht c hic himgc
    cases s with
    | mk a b d t f p r i mn mx e df ex h =>
      have ht1 : t = .one TypeArray := ht
      subst ht1
      have hi : i = some c := hic
      subst hi
      unfold SpecializeSchemaForHelm
      simp [himg, hres, SpecializeSchemaForHelm_image c himgc]

/-- A wrapper object (not itself image- or resources-shaped) holding the
nested image shape under the property img. -/
def c3Wrapper : Schema :=
  Schema.mk "" "" "" (.one TypeObject) "" (some [("img", innerImage)]) []
    none none none [] none [] ""

/-- A resources-shaped node (a limits property, no repository/tag) at helm
path res. -/
def resNode : Schema :=
  Schema.mk "" "" "" (.one TypeObject) "" (some [("limits", strLeaf)]) []
    none none none [] none [] "res"

/-- An array-typed wrapper (no properties) whose items slot holds the nested
image shape. -/
def c3ArrWrapper : Schema :=
  Schema.mk "" "" "" (.one TypeArray) "" none [] (some innerImage)
    none none [] none [] ""

/-- C3 witness: an image shape is replaced by the image fragment, a
resources shape by the resources fragment, and under non-replaced nodes the
image shape nested in the items slot of an array node and in a property of
an object node is canonicalized in place. -/
theorem SpecializeSchemaForHelm_recursion_witness :
    SpecializeSchemaForHelm innerImage = createImageSchema "img.inner" ∧
    SpecializeSchemaForHelm resNode = createResourcesSchema "res" ∧
    (SpecializeSchemaForHelm c3ArrWrapper).items = some (createImageSchema "img.inner") ∧
    ("img", createImageSchema "img.inner") ∈
      (SpecializeSchemaForHelm c3Wrapper).properties.getD [] :=
  ⟨(SpecializeSchemaForHelm_recursion innerImage).1 rfl,
   (SpecializeSchemaForHelm_recursion resNode).2.1 rfl rfl,
   (SpecializeSchemaForHelm_recursion c3ArrWrapper).2.2.2.2 rfl rfl rfl
     innerImage rfl rfl,
   (SpecializeSchemaForHelm_recursion c3Wrapper).2.2.2.1 rfl rfl rfl
     "img" innerImage (by simp [c3Wrapper]) rfl⟩

/-! ## C9: the naming-convention check on empty property names -/

/-- A string whose character list is empty is the empty string. -/
theorem string_eq_empty_of_data_nil (s : String) (h : s.data = []) : s = "" := by
  cases s with
  | mk d =>
    simp only at h
    subst h
    decide

/-- namingIssues aborts (models the panic on propName[:1]) as soon as an
empty property name is reached. -/
theorem namingIssues_none_of_empty_name (path : String) :
    ∀ props : List (String × Schema), "" ∈ props.map Prod.fst →
      namingIssues path props = none := by
  intro props
  induction props with
  | nil => intro h; simp at h
  | cons hd tl ih =>
    intro h
    obtain ⟨k1, c1⟩ := hd
    simp only [List.map_cons, List.mem_cons] at h
    rcases h with h | h
    · rw [← h]
      rfl
    · cases hk : k1.data with
      | nil => simp [namingIssues, hk]
      | cons c cs => simp [namingIssues, hk, ih h]

/-- namingIssues succeeds when every property name is non-empty. -/
theorem namingIssues_isSome_of_nonempty (path : String) :
    ∀ props : List (String × Schema), (∀ k ∈ props.map Prod.fst, k ≠ "") →
      (namingIssues path props).isSome = true := by
  intro props
  induction props with
  | nil => intro _; rfl
  | cons hd tl ih =>
    intro h
    obtain ⟨k1, c1⟩ := hd
    cases hk : k1.data with
    | nil =>
      exact absurd (string_eq_empty_of_data_nil k1 hk)
        (h k1 (by simp))
    | cons c cs =>
      have hrest := ih (fun k hkmem => h k (by simp [hkmem]))
      cases hr : namingIssues path tl with
      | none => rw [hr] at hrest; cases hrest
      | some l => simp [namingIssues, hk, hr]

/-- C9: the naming-convention check reads the first character of every
property name unconditionally; with an empty property name under a non-root
node the index is out of bounds and the check aborts (none), while it is
well-defined (isSome) whenever every property name is non-empty. -/
theorem checkNamingConventions_empty_name_aborts :
    (∀ (s : Schema) (path : String) (props : List (String × Schema)),
      path ≠ "" → s.properties = some props → "" ∈ props.map Prod.fst →
      checkNamingConventions s path = none) ∧
    (∀ (s : Schema) (path : String),
      (∀ k ∈ (s.properties.getD []).map Prod.fst, k ≠ "") →
      (checkNamingConventions s path).isSome = true) := by
  constructor
  · intro s path props hpath hp hmem
    simp [checkNamingConventions, hp, hpath]
    exact namingIssues_none_of_empty_name path props hmem
  · intro s path h
    cases hp : s.properties with
    | none => simp [checkNamingConventions, hp]
    | some props =>
      by_cases hpath : path = ""
      · simp [checkNamingConventions, hp, hpath]
      · rw [hp] at h
        simp only [Option.getD_some] at h
        simp [checkNamingConventions, hp, hpath]
        have := namingIssues_isSome_of_nonempty path props h
        cases hr : namingIssues path props with
        | none => rw [hr] at this; cases this
        | some l => simp

/-- A node carrying an empty-named property. -/
def c9Node : Schema :=
  Schema.mk "" "" "" (.one TypeObject) "" (some [("", strLeaf)]) []
    none none none [] none [] ""

/-- C9 witness: the check aborts on the empty-named property at the non-root
path x, and succeeds on a node whose property names are all non-empty. -/
theorem checkNamingConventions_empty_name_aborts_witness :
    checkNamingConventions c9Node "x" = none ∧
    (checkNamingConventions c3Wrapper "x").isSome = true :=
  ⟨checkNamingConventions_empty_name_aborts.1 c9Node "x" [("", strLeaf)]
      (by decide) rfl (by simp),
   checkNamingConventions_empty_name_aborts.2 c3Wrapper "x"
      (by intro k hk; simp [c3Wrapper] at hk; subst hk; decide)⟩

/-! ## C5: the element classification of the heterogeneity test -/

/-- specSixClass: the classification the claim describes, transcribed from
the spec's words — six classes with integer and float unified into a single
number class.  Defined for comparison against the code's hasMixedTypes. -/
def specSixClass : Value → String
  | .null => "null"
  | .bool _ => "boolean"
  | .int _ => "number"
  | .float _ => "number"
  | .str _ => "string"
  | .map _ => "object"
  | .arr _ => "array"

/-- C5 counterexample: the elements 1 and 2.5 fall into the same class of
the claim's six-class partition, so the claim predicts a homogeneous array,
yet hasMixedTypes reports [1, 2.5] as mixed: the code keeps integer and
float distinct. -/
theorem hasMixedTypes_six_class_counterexample :
    specSixClass (.int 1) = specSixClass (.float (5 / 2)) ∧
    hasMixedTypes [.int 1, .float (5 / 2)] = true :=
  ⟨rfl, by decide⟩

/-- Membership in insertClass. -/
theorem mem_insertClass (cs : List String) (c x : String) :
    x ∈ insertClass cs c ↔ x ∈ cs ∨ x = c := by
  by_cases h : c ∈ cs
  · simp only [insertClass, if_pos h]
    exact ⟨Or.inl, fun hx => hx.elim id (fun he => he ▸ h)⟩
  · simp [insertClass, h]

/-- insertClass preserves distinctness of the collected labels. -/
theorem nodup_insertClass (cs : List String) (c : String) (h : cs.Nodup) :
    (insertClass cs c).Nodup := by
  by_cases hc : c ∈ cs
  · simpa [insertClass, hc] using h
  · simp [insertClass, hc, List.nodup_append, h]

/-- Membership in the label accumulator fold. -/
theorem mem_foldl_insertClass (items : List Value) :
    ∀ (acc : List String) (x : String),
      (x ∈ items.foldl (fun a v => insertClass a (goKindClass v)) acc ↔
        x ∈ acc ∨ x ∈ items.map goKindClass) := by
  induction items with
  | nil => intro acc x; simp
  | cons v vs ih =>
    intro acc x
    simp only [List.foldl_cons, List.map_cons, List.mem_cons]
    rw [ih, mem_insertClass]
    tauto

/-- The label accumulator fold keeps labels distinct. -/
theorem nodup_foldl_insertClass (items : List Value) :
    ∀ acc : List String, acc.Nodup →
      (items.foldl (fun a v => insertClass a (goKindClass v)) acc).Nodup := by
  induction items with
  | nil => intro acc h; simpa using h
  | cons v vs ih =>
    intro acc h
    exact ih _ (nodup_insertClass acc (goKindClass v) h)

/-- The number of collected labels is the number of distinct classes among
the elements. -/
theorem collectClasses_length (items : List Value) :
    (collectClasses items).length = ((items.map goKindClass).toFinset).card := by
  have hnd : (collectClasses items).Nodup :=
    nodup_foldl_insertClass items [] (by simp)
  have hset : (collectClasses items).toFinset = (items.map goKindClass).toFinset := by
    apply Finset.ext
    intro x
    simp only [List.mem_toFinset]
    unfold collectClasses
    rw [mem_foldl_insertClass]
    simp
  rw [← hset]
  exact (List.toFinset_card_of_nodup hnd).symm

/-- C5 (amended): hasMixedTypes classifies each element by its kind into one
of seven classes — null, bool, integer, float, string, object (map) and
array (slice), with integer and float distinct — and reports a sequence as
heterogeneous exactly when more than one of these classes appears among its
elements. -/
theorem hasMixedTypes_iff_classes (items : List Value) :
    hasMixedTypes items = true ↔ 1 < ((items.map goKindClass).toFinset).card := by
  unfold hasMixedTypes
  by_cases hlen : items.length ≤ 1
  · simp only [if_pos hlen, Bool.false_eq_true, false_iff, not_lt]
    match items with
    | [] => simp
    | [x] => simp
    | x :: y :: rest => simp at hlen
  · simp [hlen, collectClasses_length]

/-- C5 witness: the mixed list [1, "a"] instantiates the class-count
characterization. -/
theorem hasMixedTypes_iff_classes_witness :
    hasMixedTypes [.int 1, .str "a"] = true :=
  (hasMixedTypes_iff_classes [.int 1, .str "a"]).mpr (by decide)

/-! ## C8: structural errors abort the run -/

/-- Is the decoded root a mapping? -/
def isMap : YVal → Bool
  | .map _ => true
  | _ => false

mutual

/-- Does the decoded tree contain a non-string mapping key anywhere? -/
def hasNonStringKey : YVal → Bool
  | .map entries => entriesNSK entries
  | .arr elems => elemsNSK elems
  | _ => false

/-- Non-string-key occurrence within a mapping's entries. -/
def entriesNSK : List (YVal × YVal) → Bool
  | [] => false
  | (k, v) :: rest =>
    (match k with
     | .str _ => false
     | _ => true) || hasNonStringKey v || entriesNSK rest

/-- Non-string-key occurrence within a sequence's elements. -/
def elemsNSK : List YVal → Bool
  | [] => false
  | v :: rest => hasNonStringKey v || elemsNSK rest

end

mutual

/-- convertYAMLToStringMap fails whenever a non-string key occurs anywhere
in the decoded tree. -/
theorem convert_error_of_nsk : ∀ d : YVal, hasNonStringKey d = true →
    ∃ e, convertYAMLToStringMap d = .error e
  | .map entries, h =>
    let ⟨e, he⟩ := convertEntries_error_of_nsk entries h
    ⟨e, by simp [convertYAMLToStringMap, he]⟩
  | .arr elems, h =>
    let ⟨e, he⟩ := convertElems_error_of_nsk elems h
    ⟨e, by simp [convertYAMLToStringMap, he]⟩

/-- convertEntries fails whenever its entries hold a non-string key. -/
theorem convertEntries_error_of_nsk : ∀ es : List (YVal × YVal),
    entriesNSK es = true → ∃ e, convertEntries es = .error e
  | (.str s, v) :: rest, h =>
    if hv : hasNonStringKey v = true then
      let ⟨e, he⟩ := convert_error_of_nsk v hv
      ⟨e, by simp [convertEntries, he, Except.bind, Bind.bind]⟩
    else
      have hr : entriesNSK rest = true := by
        simpa [entriesNSK, eq_false_of_ne_true hv] using h
      let ⟨e, he⟩ := convertEntries_error_of_nsk rest hr
      match hcv : convertYAMLToStringMap v with
      | .error e1 => ⟨e1, by simp [convertEntries, hcv, Except.bind, Bind.bind]⟩
      | .ok cv => ⟨e, by simp [convertEntries, hcv, he, Except.bind, Bind.bind]⟩
  | (.null, v) :: rest, _ => ⟨_, rfl⟩
  | (.bool b, v) :: rest, _ => ⟨_, rfl⟩
  | (.int n, v) :: rest, _ => ⟨_, rfl⟩
  | (.float q, v) :: rest, _ => ⟨_, rfl⟩
  | (.arr l, v) :: rest, _ => ⟨_, rfl⟩
  | (.map m, v) :: rest, _ => ⟨_, rfl⟩

/-- convertElems fails whenever some element holds a non-string key. -/
theorem convertElems_error_of_nsk : ∀ es : List YVal,
    elemsNSK es = true → ∃ e, convertElems es = .error e
  | v :: rest, h =>
    if hv : hasNonStringKey v = true then
      let ⟨e, he⟩ := convert_error_of_nsk v hv
      ⟨e, by simp [convertElems, he, Except.bind, Bind.bind]⟩
    else
      have hr : elemsNSK rest = true := by
        simpa [elemsNSK, eq_false_of_ne_true hv] using h
      let ⟨e, he⟩ := convertElems_error_of_nsk rest hr
      match hcv : convertYAMLToStringMap v with
      | .error e1 => ⟨e1, by simp [convertElems, hcv, Except.bind, Bind.bind]⟩
      | .ok cv => ⟨e, by simp [convertElems, hcv, he, Except.bind, Bind.bind]⟩

end

/-- C8 counterexample: a non-string key nested under the top-level key zz
aborts the run, but the error message names only the offending key, not the
offending path — the path component zz appears nowhere in it. -/
theorem GenerateFromYAML_error_message_counterexample :
    GenerateFromYAML DefaultOptions (.map [(.str "zz", .map [(.int 3, .str "x")])]) ""
      = .error "failed to convert YAML: non-string key in YAML: 3" ∧
    strContains "failed to convert YAML: non-string key in YAML: 3" "zz" = false :=
  ⟨rfl, by decide⟩

/-- C8 (amended): a structural error — a non-string mapping key anywhere in
the decoded input, or a non-mapping root — always aborts GenerateFromYAML
with an error (identifying the offending key, though not its path), and no
schema is returned. -/
theorem GenerateFromYAML_aborts (g : GeneratorOptions) (d : YVal) (txt : String) :
    (hasNonStringKey d = true → ∃ e, GenerateFromYAML g d txt = .error e) ∧
    (isMap d = false → ∃ e, GenerateFromYAML g d txt = .error e) := by
  constructor
  · intro h
    obtain ⟨e, he⟩ := convert_error_of_nsk d h
    exact ⟨"failed to convert YAML: " ++ e, by simp [GenerateFromYAML, he]⟩
  · intro h
    cases d with
    | map entries => simp [isMap] at h
    | null => exact ⟨_, rfl⟩
    | bool b => exact ⟨_, rfl⟩
    | int n => exact ⟨_, rfl⟩
    | float q => exact ⟨_, rfl⟩
    | str s => exact ⟨_, rfl⟩
    | arr elems =>
      cases hce : convertElems elems with
      | error e =>
        exact ⟨"failed to convert YAML: " ++ e,
          by simp [GenerateFromYAML, convertYAMLToStringMap, hce, Except.bind, Bind.bind]⟩
      | ok l =>
        exact ⟨"root YAML value must be a map, got " ++ valueTypeName (.arr l),
          by simp [GenerateFromYAML, convertYAMLToStringMap, hce, Except.bind, Bind.bind,
            pure, Except.pure]⟩

/-- C8 witness: a root-level non-string key and a non-mapping root each
abort with an error. -/
theorem GenerateFromYAML_aborts_witness :
    (∃ e, GenerateFromYAML DefaultOptions (.map [(.int 1, .null)]) "" = .error e) ∧
    (∃ e, GenerateFromYAML DefaultOptions (.int 5) "" = .error e) :=
  ⟨(GenerateFromYAML_aborts DefaultOptions (.map [(.int 1, .null)]) "").1 (by decide),
   (GenerateFromYAML_aborts DefaultOptions (.int 5) "").2 (by decide)⟩

/-! ## C10: leading comments are recorded twice -/

/-- The accumulation of comment contents into a newline-joined buffer, as
both the pending-comment buffer and the top-level-comment buffer perform
it. -/
def commentFold (J : String) (cs : List String) : String :=
  cs.foldl
    (fun j c => if j = "" then commentContent c else j ++ "\n" ++ commentContent c) J

/-- A one-character pattern occurs in a list exactly when the character is a
member. -/
theorem mem_of_containsSubL_single {c : Char} :
    ∀ {l : List Char}, containsSubL [c] l = true → c ∈ l := by
  intro l
  induction l with
  | nil => intro h; simp [containsSubL] at h
  | cons x xs ih =>
    intro h
    simp only [containsSubL, startsWithL, Bool.or_eq_true, Bool.and_eq_true,
      decide_eq_true_eq] at h
    rcases h with ⟨h1, _⟩ | h2
    · exact h1 ▸ List.mem_cons_self _ _
    · exact List.mem_cons_of_mem _ (ih h2)

/-- dropLeadSp keeps every non-space character. -/
theorem mem_dropLeadSp {x : Char} (hx : isSpaceCh x = false) :
    ∀ {l : List Char}, x ∈ l → x ∈ dropLeadSp l := by
  intro l
  induction l with
  | nil => intro h; cases h
  | cons ch cs ih =>
    intro h
    by_cases hc : isSpaceCh ch = true
    · rcases List.mem_cons.mp h with h1 | h1
      · rw [h1] at hx; rw [hx] at hc; cases hc
      · simpa [dropLeadSp, hc] using ih h1
    · simpa [dropLeadSp, eq_false_of_ne_true hc] using h

/-- trimSpaceL keeps every non-space character. -/
theorem mem_trimSpaceL {x : Char} (hx : isSpaceCh x = false) {l : List Char}
    (h : x ∈ l) : x ∈ trimSpaceL l := by
  unfold trimSpaceL
  exact List.mem_reverse.mpr
    (mem_dropLeadSp hx (List.mem_reverse.mpr (mem_dropLeadSp hx h)))

/-- A key line (a line containing a colon) does not trim to the empty
string. -/
theorem strTrim_ne_empty_of_colon {kl : String} (h : strContains kl ":" = true) :
    ¬(strTrim kl = "") := by
  intro he
  have hc : (':' : Char) ∈ kl.data := mem_of_containsSubL_single h
  have ht : (':' : Char) ∈ trimSpaceL kl.data := mem_trimSpaceL (by decide) hc
  have : trimSpaceL kl.data = [] := congrArg String.data he
  rw [this] at ht
  cases ht

/-- Processing a run of comment lines from the initial state accumulates the
same text into the pending buffer and the top-level buffer, and touches
nothing else. -/
theorem foldl_commentLines :
    ∀ (cs : List String),
      (∀ c ∈ cs, strTrim c ≠ "" ∧ strStarts (strTrim c) "#" = true) →
      ∀ J : String,
        cs.foldl processLine ⟨[], [], J, J, [], false⟩ =
          ⟨[], [], commentFold J cs, commentFold J cs, [], false⟩ := by
  intro cs
  induction cs with
  | nil => intro _ J; rfl
  | cons c cs ih =>
    intro hcs J
    obtain ⟨hc1, hc2⟩ := hcs c (List.mem_cons_self _ _)
    have hstep : processLine ⟨[], [], J, J, [], false⟩ c =
        ⟨[], [],
         (if J = "" then commentContent c else J ++ "\n" ++ commentContent c),
         (if J = "" then commentContent c else J ++ "\n" ++ commentContent c),
         [], false⟩ := by
      simp [processLine, hc1, hc2]
    rw [List.foldl_cons, hstep, ih (fun c1 hc => hcs c1 (List.mem_cons_of_mem _ hc)) _]
    rfl

/-- Processing the first key line from a comment-accumulated state: the
pending buffer (when non-empty) is stored under the key's path, while the
top-level buffer is left as it is — it is not cleared. -/
theorem processLine_first_key (J : String) (kl : String)
    (hb : ¬(strTrim kl = "")) (hk1 : strStarts (strTrim kl) "#" = false)
    (hk2 : strContains kl ":" = true) :
    processLine ⟨[], [], J, J, [], false⟩ kl =
      ⟨(if J ≠ "" then [(lineKey kl, J)] else []),
       [((kl.data.takeWhile (fun c => c = ' ')).length, [lineKey kl])],
       "", J, [(kl.data.takeWhile (fun c => c = ' ')).length], true⟩ := by
  simp only [processLine, hb, hk1, hk2, if_false, if_true, ite_false, ite_true]
  by_cases hJ : J = ""
  · simp [hJ, setAssoc, setAssocNat, strJoin]
  · simp [hJ, setAssoc, setAssocNat, strJoin]

/-- C10: when the source text begins with comment lines before the first key
line, the accumulated comment text is recorded both under the empty path
(the document's top-level description) and under the first key's path,
because the pending buffer is not cleared when the top-level comment is
captured; consequently, with description extraction enabled, both the root
schema and the first key's node receive the same text, as the concrete
pipeline run shows. -/
theorem extract_leading_comments_double (cs : List String) (kl : String)
    (hcs : ∀ c ∈ cs, strTrim c ≠ "" ∧ strStarts (strTrim c) "#" = true)
    (hk1 : strStarts (strTrim kl) "#" = false)
    (hk2 : strContains kl ":" = true) :
    (lookupAssoc (ExtractFromYAMLLines (cs ++ [kl])) "" =
      lookupAssoc (ExtractFromYAMLLines (cs ++ [kl])) (lineKey kl)) ∧
    (commentFold "" cs ≠ "" →
      lookupAssoc (ExtractFromYAMLLines (cs ++ [kl])) "" = some (commentFold "" cs)) ∧
    ((GenerateFromYAML DefaultOptions (.map [(.str "key1", .str "value1")])
        "# Top comment\nkey1: value1").toOption.map Schema.description =
      some "Top comment") ∧
    (((GenerateFromYAML DefaultOptions (.map [(.str "key1", .str "value1")])
        "# Top comment\nkey1: value1").toOption.bind
          (fun s => lookupAssoc (s.properties.getD []) "key1")).map
        Schema.description = some "Top comment") := by
  have hb : ¬(strTrim kl = "") := strTrim_ne_empty_of_colon hk2
  have hext : ExtractFromYAMLLines (cs ++ [kl]) =
      (if commentFold "" cs ≠ "" then
        setAssoc (if commentFold "" cs ≠ "" then [(lineKey kl, commentFold "" cs)] else [])
          "" (commentFold "" cs)
       else
        (if commentFold "" cs ≠ "" then [(lineKey kl, commentFold "" cs)] else [])) := by
    unfold ExtractFromYAMLLines
    rw [show ExtractState.init = (⟨[], [], "", "", [], false⟩ : ExtractState) from rfl]
    rw [List.foldl_append, foldl_commentLines cs hcs "",
      show ∀ st : ExtractState, List.foldl processLine st [kl] = processLine st kl
        from fun st => rfl,
      processLine_first_key _ kl hb hk1 hk2]
  refine ⟨?_, ?_, by decide, by decide⟩
  · rw [hext]
    by_cases hJ : commentFold "" cs = ""
    · simp [hJ, lookupAssoc]
    · by_cases hkey : lineKey kl = ""
      · simp [hJ, hkey, setAssoc, lookupAssoc]
      · simp only [hJ, ne_eq, not_false_iff, if_true, setAssoc, if_neg hkey]
        simp [lookupAssoc, hkey, Ne.symm hkey]
  · intro hJ
    rw [hext]
    by_cases hkey : lineKey kl = ""
    · simp [hJ, hkey, setAssoc, lookupAssoc]
    · simp only [hJ, ne_eq, not_false_iff, if_true, setAssoc, if_neg hkey]
      simp [lookupAssoc, hkey, Ne.symm hkey]

/-- C10 witness: the single comment line # Top comment precedes the line
key1: value1; the extracted map records Top comment both under the empty
path and under key1. -/
theorem extract_leading_comments_double_witness :
    lookupAssoc (ExtractFromYAMLLines (["# Top comment"] ++ ["key1: value1"])) "" =
      lookupAssoc (ExtractFromYAMLLines (["# Top comment"] ++ ["key1: value1"]))
        (lineKey "key1: value1") ∧
    lookupAssoc (ExtractFromYAMLLines (["# Top comment"] ++ ["key1: value1"])) "" =
      some (commentFold "" ["# Top comment"]) :=
  ⟨(extract_leading_comments_double ["# Top comment"] "key1: value1"
      (by decide) (by decide) (by decide)).1,
   (extract_leading_comments_double ["# Top comment"] "key1: value1"
      (by decide) (by decide) (by decide)).2.1 (by decide)⟩

end HelmSchemaGen
